import Mathlib

/-!
Verification development for the deribit-rs schema layer and protocol engine
specification.  The Rust source is shallowly embedded: Rust strings become
`List Char`, serde JSON values become the inductive `Json`, fallible
deserializers return `Except`/`Option`, and panics are modelled as `none`.
-/

set_option maxHeartbeats 1000000

/-- JSON values as produced/consumed by serde_json, shallowly embedded.
Numbers are irrelevant to the request payloads verified here and are kept
as integers; objects are ordered association lists as serde emits them. -/
inductive Json where
  | null : Json
  | bool (b : Bool) : Json
  | num (n : Int) : Json
  | str (s : String) : Json
  | arr (xs : List Json) : Json
  | obj (fields : List (String × Json)) : Json

/-- Embeds `enum Currency { BTC, ETH, USD }` from src/models.rs. -/
inductive Currency where
  | BTC : Currency
  | ETH : Currency
  | USD : Currency
deriving DecidableEq

/-- Serde `Serialize` for `Currency`: the variant name, no rename attribute. -/
def Currency.toJson : Currency → Json
  | .BTC => .str "BTC"
  | .ETH => .str "ETH"
  | .USD => .str "USD"

/-- Serde `Deserialize` for `Currency`: each variant also accepts its
lowercase `#[serde(alias)]`. -/
def Currency.fromJson : Json → Option Currency
  | .str "BTC" => some .BTC
  | .str "btc" => some .BTC
  | .str "ETH" => some .ETH
  | .str "eth" => some .ETH
  | .str "USD" => some .USD
  | .str "usd" => some .USD
  | _ => none

/-- The `Display` impl for `Currency` writes the `Debug` variant name. -/
def Currency.toDisplay : Currency → List Char
  | .BTC => "BTC".toList
  | .ETH => "ETH".toList
  | .USD => "USD".toList

/-- Embeds `enum AssetKind { Future, Option }` with `rename_all = "lowercase"`. -/
inductive AssetKind where
  | Future : AssetKind
  | Option : AssetKind
deriving DecidableEq

/-- Serde `Serialize` for `AssetKind` under `rename_all = "lowercase"`. -/
def assetKindToJson : AssetKind → Json
  | .Future => .str "future"
  | .Option => .str "option"

/-- Serde `Deserialize` for `AssetKind` (lowercase names, aliases identical). -/
def assetKindFromJson : Json → Option AssetKind
  | .str "future" => some .Future
  | .str "option" => some .Option
  | _ => none

/-- Embeds `enum Either<L, R> { Left(L), Right(R) }` from src/models.rs. -/
inductive Either (L R : Type) where
  | Left (l : L) : Either L R
  | Right (r : R) : Either L R

/-- Embeds `enum Any3<O1, O2, O3>` from src/models.rs. -/
inductive Any3 (O1 O2 O3 : Type) where
  | First (o : O1) : Any3 O1 O2 O3
  | Second (o : O2) : Any3 O1 O2 O3
  | Third (o : O3) : Any3 O1 O2 O3

/-- Embeds `enum Any12<O1, ..., O12>` from src/models.rs. -/
inductive Any12 (O1 O2 O3 O4 O5 O6 O7 O8 O9 O10 O11 O12 : Type) where
  | First (o : O1) : Any12 O1 O2 O3 O4 O5 O6 O7 O8 O9 O10 O11 O12
  | Second (o : O2) : Any12 O1 O2 O3 O4 O5 O6 O7 O8 O9 O10 O11 O12
  | Third (o : O3) : Any12 O1 O2 O3 O4 O5 O6 O7 O8 O9 O10 O11 O12
  | Fourth (o : O4) : Any12 O1 O2 O3 O4 O5 O6 O7 O8 O9 O10 O11 O12
  | Fifth (o : O5) : Any12 O1 O2 O3 O4 O5 O6 O7 O8 O9 O10 O11 O12
  | Sixth (o : O6) : Any12 O1 O2 O3 O4 O5 O6 O7 O8 O9 O10 O11 O12
  | Seventh (o : O7) : Any12 O1 O2 O3 O4 O5 O6 O7 O8 O9 O10 O11 O12
  | Eighth (o : O8) : Any12 O1 O2 O3 O4 O5 O6 O7 O8 O9 O10 O11 O12
  | Ninth (o : O9) : Any12 O1 O2 O3 O4 O5 O6 O7 O8 O9 O10 O11 O12
  | Tenth (o : O10) : Any12 O1 O2 O3 O4 O5 O6 O7 O8 O9 O10 O11 O12
  | Eleventh (o : O11) : Any12 O1 O2 O3 O4 O5 O6 O7 O8 O9 O10 O11 O12
  | Twelfth (o : O12) : Any12 O1 O2 O3 O4 O5 O6 O7 O8 O9 O10 O11 O12

/-- Serde `#[serde(untagged)]` deserialization for `Either`: the derived impl
buffers the value and tries each variant deserializer in declared order,
returning the first success. -/
def Either.deserializeUntagged {L R : Type} (dl : Json → Option L)
    (dr : Json → Option R) (j : Json) : Option (Either L R) :=
  match dl j with
  | some l => some (.Left l)
  | none =>
    match dr j with
    | some r => some (.Right r)
    | none => none

/-- Serde `#[serde(untagged)]` deserialization for `Any3`, variants tried in
declared order. -/
def Any3.deserializeUntagged {O1 O2 O3 : Type} (d1 : Json → Option O1)
    (d2 : Json → Option O2) (d3 : Json → Option O3) (j : Json) :
    Option (Any3 O1 O2 O3) :=
  match d1 j with
  | some o => some (.First o)
  | none =>
    match d2 j with
    | some o => some (.Second o)
    | none =>
      match d3 j with
      | some o => some (.Third o)
      | none => none

/-- Serde `#[serde(untagged)]` deserialization for `Any12`, variants tried in
declared order. -/
def Any12.deserializeUntagged {O1 O2 O3 O4 O5 O6 O7 O8 O9 O10 O11 O12 : Type}
    (d1 : Json → Option O1) (d2 : Json → Option O2) (d3 : Json → Option O3)
    (d4 : Json → Option O4) (d5 : Json → Option O5) (d6 : Json → Option O6)
    (d7 : Json → Option O7) (d8 : Json → Option O8) (d9 : Json → Option O9)
    (d10 : Json → Option O10) (d11 : Json → Option O11)
    (d12 : Json → Option O12) (j : Json) :
    Option (Any12 O1 O2 O3 O4 O5 O6 O7 O8 O9 O10 O11 O12) :=
  match d1 j with
  | some o => some (.First o)
  | none =>
    match d2 j with
    | some o => some (.Second o)
    | none =>
      match d3 j with
      | some o => some (.Third o)
      | none =>
        match d4 j with
        | some o => some (.Fourth o)
        | none =>
          match d5 j with
          | some o => some (.Fifth o)
          | none =>
            match d6 j with
            | some o => some (.Sixth o)
            | none =>
              match d7 j with
              | some o => some (.Seventh o)
              | none =>
                match d8 j with
                | some o => some (.Eighth o)
                | none =>
                  match d9 j with
                  | some o => some (.Ninth o)
                  | none =>
                    match d10 j with
                    | some o => some (.Tenth o)
                    | none =>
                      match d11 j with
                      | some o => some (.Eleventh o)
                      | none =>
                        match d12 j with
                        | some o => some (.Twelfth o)
                        | none => none

/-- IEEE-754 double (`f64`) embedded by its 64-bit pattern; the claims verified
here never compute with floating point, only carry such fields. -/
structure F64 where
  bits : Nat

/-- Embeds `trait Request { const METHOD: &'static str; type Response; }`
from src/models.rs: a compile-time binding from a request payload type to its
wire method name and expected response payload type. -/
class Request (α : Type) where
  METHOD : String
  Response : Type

/-- Embeds `struct GetInstrumentsRequest` from src/models/market_data.rs. -/
structure GetInstrumentsRequest where
  currency : Option Currency
  kind : Option AssetKind
  expired : Option Bool

/-- Embeds the `enum GetInstrumentsResponse` variants (tagged by `kind`,
`rename_all = "snake_case"`) from src/models/market_data.rs. -/
inductive GetInstrumentsResponse where
  | Future (base_currency : String) (contract_size : F64)
      (creation_timestamp : Nat) (expiration_timestamp : Nat)
      (instrument_name : String) (is_active : Bool) (min_trade_amount : F64)
      (quote_currency : Currency) (settlement_period : String)
      (tick_size : F64) : GetInstrumentsResponse
  | FutureCombo (base_currency : String) (contract_size : F64)
      (creation_timestamp : Nat) (expiration_timestamp : Nat)
      (instrument_name : String) (is_active : Bool) (min_trade_amount : F64)
      (quote_currency : Currency) (settlement_period : String)
      (tick_size : F64) : GetInstrumentsResponse
  | Option (base_currency : String) (contract_size : F64)
      (creation_timestamp : Nat) (expiration_timestamp : Nat)
      (instrument_name : String) (is_active : Bool) (min_trade_amount : F64)
      (option_type : String) (quote_currency : Currency)
      (settlement_period : String) (strike : F64)
      (tick_size : F64) : GetInstrumentsResponse
  | OptionCombo (base_currency : String) (contract_size : F64)
      (creation_timestamp : Nat) (expiration_timestamp : Nat)
      (instrument_name : String) (is_active : Bool) (min_trade_amount : F64)
      (quote_currency : Currency) (settlement_period : String)
      (tick_size : F64) : GetInstrumentsResponse
  | Spot (base_currency : String) (contract_size : F64)
      (creation_timestamp : Nat) (expiration_timestamp : Nat)
      (instrument_name : String) (is_active : Bool) (min_trade_amount : F64)
      (quote_currency : Currency) (tick_size : F64) : GetInstrumentsResponse

/-- Embeds `struct GetBookSummaryByCurrencyRequest` from market_data.rs. -/
structure GetBookSummaryByCurrencyRequest where
  currency : Currency
  kind : Option AssetKind

/-- Embeds `struct GetBookSummaryByCurrencyResponse` from market_data.rs. -/
structure GetBookSummaryByCurrencyResponse where
  ask_price : Option F64
  base_currency : Currency
  bid_price : Option F64
  creation_timestamp : Nat
  current_funding : Option F64
  estimated_delivery_price : Option F64
  funding_8h : Option F64
  high : Option F64
  instrument_name : String
  interest_rate : Option F64
  last : Option F64
  low : Option F64
  mark_price : F64
  mid_price : Option F64
  open_interest : Option F64
  quote_currency : Currency
  underlying_index : Option String
  underlying_price : Option F64
  volume : F64
  volume_usd : Option F64

/-- Embeds `impl Request for GetInstrumentsRequest` from market_data.rs. -/
instance : Request GetInstrumentsRequest where
  METHOD := "public/get_instruments"
  Response := List GetInstrumentsResponse

/-- Embeds `impl Request for GetBookSummaryByCurrencyRequest`. -/
instance : Request GetBookSummaryByCurrencyRequest where
  METHOD := "public/get_book_summary_by_currency"
  Response := List GetBookSummaryByCurrencyResponse

/-- Serde helper: a struct field under `skip_serializing_if = "Option::is_none"`
contributes no key when the value is `none`. -/
def optField (name : String) : Option Json → List (String × Json)
  | some j => [(name, j)]
  | none => []

/-- Serde `Serialize` for `GetInstrumentsRequest`: object with the declared
fields, each optional field skipped when `None`. -/
def GetInstrumentsRequest.toJson (r : GetInstrumentsRequest) : Json :=
  .obj (optField "currency" (r.currency.map Currency.toJson) ++
        optField "kind" (r.kind.map assetKindToJson) ++
        optField "expired" (r.expired.map Json.bool))

/-- Field lookup in a serde map visitor: first occurrence of the key. -/
def lookupField (fields : List (String × Json)) (name : String) : Option Json :=
  match fields with
  | [] => none
  | (k, v) :: rest => if k = name then some v else lookupField rest name

/-- Serde derive treats a missing `Option` field as `None`; a present field
must decode with the inner deserializer. -/
def decodeOptField {β : Type} (fields : List (String × Json)) (name : String)
    (dec : Json → Option β) : Option (Option β) :=
  match lookupField fields name with
  | none => some none
  | some j => (dec j).map some

/-- Serde `Deserialize` for a JSON boolean. -/
def boolFromJson : Json → Option Bool
  | .bool b => some b
  | _ => none

/-- Serde `Deserialize` for `GetInstrumentsRequest`: expects an object, all
three fields optional. -/
def GetInstrumentsRequest.fromJson : Json → Option GetInstrumentsRequest
  | .obj fields => do
      let currency ← decodeOptField fields "currency" Currency.fromJson
      let kind ← decodeOptField fields "kind" assetKindFromJson
      let expired ← decodeOptField fields "expired" boolFromJson
      some ⟨currency, kind, expired⟩
  | _ => none

/-- Serde `Serialize` for `GetBookSummaryByCurrencyRequest`: `currency` is
required, `kind` skipped when `None`. -/
def GetBookSummaryByCurrencyRequest.toJson
    (r : GetBookSummaryByCurrencyRequest) : Json :=
  .obj ([("currency", r.currency.toJson)] ++
        optField "kind" (r.kind.map assetKindToJson))

/-- Serde `Deserialize` for `GetBookSummaryByCurrencyRequest`: `currency` is
mandatory, `kind` optional. -/
def GetBookSummaryByCurrencyRequest.fromJson :
    Json → Option GetBookSummaryByCurrencyRequest
  | .obj fields => do
      let cj ← lookupField fields "currency"
      let currency ← Currency.fromJson cj
      let kind ← decodeOptField fields "kind" assetKindFromJson
      some ⟨currency, kind⟩
  | _ => none

/-- Embeds Rust `s.split(".").collect::<Vec<_>>()`: split a char sequence at
every dot, keeping empty segments, as in
src/models/subscription/channels/user_changes.rs. -/
def splitOnDot : List Char → List (List Char)
  | [] => [[]]
  | c :: rest =>
    if c = '.' then [] :: splitOnDot rest
    else
      match splitOnDot rest with
      | [] => [[c]]
      | seg :: segs => (c :: seg) :: segs

/-- Serde deserialization error: `invalid_value` carries the offending input
string and the expectation message, as raised by the channel decoder. -/
inductive DeError where
  | invalidValue (input : List Char) (expected : String) : DeError
deriving DecidableEq

/-- The expectation message of the `UserChangesChannel` deserializer. -/
def userChangesExpected : String :=
  "user.changes.\x7binstrument_name\x7d.\x7binterval\x7d or user.changes.\x7bkind\x7d.\x7bcurrency\x7d.\x7binterval\x7d"

/-- Embeds `enum UserChangesChannel` from user_changes.rs. -/
inductive UserChangesChannel where
  | ByInstrument (instrument_name interval : List Char) : UserChangesChannel
  | ByKind (kind currency interval : List Char) : UserChangesChannel
deriving DecidableEq

/-- Embeds `impl Deserialize for UserChangesChannel`: split the string on
dots and match the segment list against the two accepted shapes. -/
def UserChangesChannel.deserialize (s : List Char) :
    Except DeError UserChangesChannel :=
  match splitOnDot s with
  | [u, c, instrument_name, interval] =>
    if u = "user".toList ∧ c = "changes".toList then
      .ok (.ByInstrument instrument_name interval)
    else .error (.invalidValue s userChangesExpected)
  | [u, c, kind, currency, interval] =>
    if u = "user".toList ∧ c = "changes".toList then
      .ok (.ByKind kind currency interval)
    else .error (.invalidValue s userChangesExpected)
  | _ => .error (.invalidValue s userChangesExpected)

/-- Embeds `impl Display for UserChangesChannel` (which `Serialize` wraps as
a JSON string): writes the dot-joined segments. -/
def UserChangesChannel.toDisplay : UserChangesChannel → List Char
  | .ByInstrument instrument_name interval =>
    "user.changes.".toList ++ instrument_name ++ '.' :: interval
  | .ByKind kind currency interval =>
    "user.changes.".toList ++ kind ++ '.' :: currency ++ '.' :: interval

/-- Channels whose segment fields contain no dot character. -/
def UserChangesChannel.segmentsDotfree : UserChangesChannel → Prop
  | .ByInstrument instrument_name interval =>
    '.' ∉ instrument_name ∧ '.' ∉ interval
  | .ByKind kind currency interval =>
    '.' ∉ kind ∧ '.' ∉ currency ∧ '.' ∉ interval

/-- Dot-joining, the left inverse of `splitOnDot`. -/
def joinDots : List (List Char) → List Char
  | [] => []
  | [a] => a
  | a :: rest => a ++ '.' :: joinDots rest

/-- Embeds `Either::unwrap_left`; the Rust panic on a `Right` value is
modelled as `none`. -/
def Either.unwrap_left {L R : Type} : Either L R → Option L
  | .Left l => some l
  | .Right _ => none

/-- Embeds `Either::unwrap_right`; the Rust panic on a `Left` value is
modelled as `none`. -/
def Either.unwrap_right {L R : Type} : Either L R → Option R
  | .Left _ => none
  | .Right r => some r

/-- Embeds `Either::left` (total in Rust, returning `Option<L>`). -/
def Either.left {L R : Type} : Either L R → Option L
  | .Left l => some l
  | .Right _ => none

/-- Embeds `Either::right` (total in Rust, returning `Option<R>`). -/
def Either.right {L R : Type} : Either L R → Option R
  | .Left _ => none
  | .Right r => some r

/-- Embeds `Either::left_result` returning `Result<L, R>`. -/
def Either.left_result {L R : Type} : Either L R → Except R L
  | .Left l => .ok l
  | .Right r => .error r

/-- Embeds `Either::right_result` returning `Result<R, L>`. -/
def Either.right_result {L R : Type} : Either L R → Except L R
  | .Left l => .error l
  | .Right r => .ok r

/-- Hexadecimal digit test for JSON `\uXXXX` escapes. -/
def isHexDigit (c : Char) : Bool :=
  decide (('0' ≤ c ∧ c ≤ '9') ∨ ('a' ≤ c ∧ c ≤ 'f') ∨ ('A' ≤ c ∧ c ≤ 'F'))

/-- Value of a hexadecimal digit. -/
def hexVal (c : Char) : Nat :=
  if '0' ≤ c ∧ c ≤ '9' then c.toNat - '0'.toNat
  else if 'a' ≤ c ∧ c ≤ 'f' then c.toNat - 'a'.toNat + 10
  else c.toNat - 'A'.toNat + 10

/-- Value of a four-digit hexadecimal escape. -/
def hexNum (a b c d : Char) : Nat :=
  ((hexVal a * 16 + hexVal b) * 16 + hexVal c) * 16 + hexVal d

/-- Prepends a decoded character to a successful scan result. -/
def pushChar (c : Char) :
    Option (List Char × List Char) → Option (List Char × List Char)
  | some (s, rest) => some (c :: s, rest)
  | none => none

/-- JSON string-body scanner with serde_json semantics: consumes characters
after the opening quote up to the closing quote, decoding the standard
escapes and `\uXXXX` (combining surrogate pairs), rejecting raw control
characters, lone surrogates and unknown escapes; returns the decoded text
and the remaining input after the closing quote. -/
def parseStringBody : List Char → Option (List Char × List Char)
  | [] => none
  | '"' :: rest => some ([], rest)
  | '\\' :: rest =>
    match rest with
    | '"' :: r => pushChar '"' (parseStringBody r)
    | '\\' :: r => pushChar '\\' (parseStringBody r)
    | '/' :: r => pushChar '/' (parseStringBody r)
    | 'b' :: r => pushChar (Char.ofNat 8) (parseStringBody r)
    | 'f' :: r => pushChar (Char.ofNat 12) (parseStringBody r)
    | 'n' :: r => pushChar (Char.ofNat 10) (parseStringBody r)
    | 'r' :: r => pushChar (Char.ofNat 13) (parseStringBody r)
    | 't' :: r => pushChar (Char.ofNat 9) (parseStringBody r)
    | 'u' :: a :: b :: c :: d :: r =>
      if isHexDigit a && isHexDigit b && isHexDigit c && isHexDigit d then
        if 0xD800 ≤ hexNum a b c d ∧ hexNum a b c d ≤ 0xDBFF then
          match r with
          | '\\' :: 'u' :: a2 :: b2 :: c2 :: d2 :: r2 =>
            if isHexDigit a2 && isHexDigit b2 && isHexDigit c2 &&
                isHexDigit d2 then
              if 0xDC00 ≤ hexNum a2 b2 c2 d2 ∧
                  hexNum a2 b2 c2 d2 ≤ 0xDFFF then
                pushChar (Char.ofNat (0x10000 +
                    (hexNum a b c d - 0xD800) * 0x400 +
                    (hexNum a2 b2 c2 d2 - 0xDC00)))
                  (parseStringBody r2)
              else none
            else none
          | _ => none
        else if 0xDC00 ≤ hexNum a b c d ∧ hexNum a b c d ≤ 0xDFFF then none
        else pushChar (Char.ofNat (hexNum a b c d)) (parseStringBody r)
      else none
    | _ => none
  | c :: rest => if c.toNat < 32 then none else pushChar c (parseStringBody rest)

/-- JSON insignificant whitespace. -/
def isJsonWs (c : Char) : Bool :=
  c == ' ' || c == Char.ofNat 9 || c == Char.ofNat 10 || c == Char.ofNat 13

/-- Parses a complete JSON document that must consist of a single string
literal (plus insignificant whitespace), as `serde_json::from_str::<T>` does
when `T` expects a string. -/
def parseJsonStringDoc (doc : List Char) : Option (List Char) :=
  match doc.dropWhile isJsonWs with
  | '"' :: rest =>
    match parseStringBody rest with
    | some (s, rem) => if rem.all isJsonWs then some s else none
    | none => none
  | _ => none

/-- Error type of the embedded `FromStr` impls (src/errors.rs is outside the
schema layer; only the `UnknownCurrency` case is needed here). -/
inductive DeribitError where
  | UnknownCurrency (s : List Char) : DeribitError
deriving DecidableEq

/-- The string visitor of the derived `Deserialize` for `Currency`: each
variant name plus its lowercase alias. -/
def Currency.fromJsonStrChars (t : List Char) : Option Currency :=
  if t = "BTC".toList ∨ t = "btc".toList then some .BTC
  else if t = "ETH".toList ∨ t = "eth".toList then some .ETH
  else if t = "USD".toList ∨ t = "usd".toList then some .USD
  else none

/-- Embeds `impl FromStr for Currency` from src/models.rs: the input is
wrapped in JSON quotes, handed to `serde_json::from_str`, and any failure is
mapped to `DeribitError::UnknownCurrency` carrying the input verbatim. -/
def Currency.from_str (s : List Char) : Except DeribitError Currency :=
  match parseJsonStringDoc ('"' :: (s ++ ['"'])) with
  | some t =>
    match Currency.fromJsonStrChars t with
    | some c => .ok c
    | none => .error (.UnknownCurrency s)
  | none => .error (.UnknownCurrency s)

/-- Modelled from the spec: the `ConnectionState` machine of §3; the engine
(Connection Manager) source is not part of the repository slice under
src/. -/
inductive ConnectionState where
  | Disconnected : ConnectionState
  | Connecting : ConnectionState
  | Connected : ConnectionState
  | Draining : ConnectionState
  | Closed : ConnectionState
deriving DecidableEq

/-- Modelled from the spec: the Correlation Table of §4.2 — the monotonically
increasing fresh-id counter and the ids with an outstanding `PendingCall`;
the engine source is absent from src/. -/
structure CorrelationTable where
  nextId : Nat
  pending : List Nat
deriving DecidableEq

/-- The empty table of a fresh connection. -/
def CorrelationTable.init : CorrelationTable := ⟨0, []⟩

/-- Modelled from the spec: the events the Correlation Table reacts to —
`register` allocates a fresh id for a submitted call, `resolve id` is a
server Result frame (or per-call timeout) for `id`. -/
inductive CallEvent where
  | register : CallEvent
  | resolve (id : Nat) : CallEvent
deriving DecidableEq

/-- Modelled from the spec (§4.2): one step of the Correlation Table,
returning the new table and the ids whose one-shot completion slot this
event resolves.  A `resolve` for an id with no outstanding `PendingCall` is
dropped as a logged protocol anomaly, leaving the table unchanged. -/
def CorrelationTable.step (st : CorrelationTable) :
    CallEvent → CorrelationTable × List Nat
  | .register => (⟨st.nextId + 1, st.nextId :: st.pending⟩, [])
  | .resolve id =>
    if id ∈ st.pending then (⟨st.nextId, st.pending.erase id⟩, [id])
    else (st, [])

/-- Modelled from the spec (§4.2): `expire_all` on teardown resolves every
outstanding call with a connection-lost error. -/
def CorrelationTable.expire_all (st : CorrelationTable) :
    CorrelationTable × List Nat :=
  (⟨st.nextId, []⟩, st.pending)

/-- Runs a sequence of events through `step`, collecting every resolution in
order. -/
def CorrelationTable.run :
    CorrelationTable → List CallEvent → CorrelationTable × List Nat
  | st, [] => (st, [])
  | st, e :: es =>
    (((st.step e).1.run es).1, (st.step e).2 ++ ((st.step e).1.run es).2)

/-- A complete session per the spec: the submitted events followed by
teardown's `expire_all`; yields every resolution any call ever receives. -/
def CorrelationTable.session (evs : List CallEvent) : List Nat :=
  (CorrelationTable.init.run evs).2 ++
    ((CorrelationTable.init.run evs).1.expire_all).2

/-- Modelled from the spec (§4.1): one read-loop step on an inbound frame —
the loop decodes the frame and, when decoding fails, logs and discards it,
leaving the connection state untouched; the engine source is absent from
src/.  The decoder is a parameter, instantiated below with the repository's
`UserChangesChannel` deserializer. -/
def readLoopStep {α : Type} (decode : List Char → Except DeError α)
    (conn : ConnectionState) (frame : List Char) :
    ConnectionState × Option α :=
  match decode frame with
  | .ok a => (conn, some a)
  | .error _ => (conn, none)

/-- C1: for the untagged multi-variant wrappers (`Either`, `Any3`, `Any12`),
decoding tries the variant shapes in declared order and the first structural
match wins: whenever an input matches more than one variant, the
earliest-declared matching variant is returned. -/
theorem untagged_decode_first_match :
    (∀ (L R : Type) (dl : Json → Option L) (dr : Json → Option R) (j : Json)
        (l : L) (r : R), dl j = some l → dr j = some r →
        Either.deserializeUntagged dl dr j = some (.Left l)) ∧
    (∀ (O1 O2 O3 : Type) (d1 : Json → Option O1) (d2 : Json → Option O2)
        (d3 : Json → Option O3) (j : Json) (o1 : O1) (o3 : O3),
        d1 j = some o1 → d3 j = some o3 →
        Any3.deserializeUntagged d1 d2 d3 j = some (.First o1)) ∧
    (∀ (O1 O2 O3 : Type) (d1 : Json → Option O1) (d2 : Json → Option O2)
        (d3 : Json → Option O3) (j : Json) (o2 : O2) (o3 : O3),
        d1 j = none → d2 j = some o2 → d3 j = some o3 →
        Any3.deserializeUntagged d1 d2 d3 j = some (.Second o2)) ∧
    (∀ (O1 O2 O3 O4 O5 O6 O7 O8 O9 O10 O11 O12 : Type)
        (d1 : Json → Option O1) (d2 : Json → Option O2) (d3 : Json → Option O3)
        (d4 : Json → Option O4) (d5 : Json → Option O5) (d6 : Json → Option O6)
        (d7 : Json → Option O7) (d8 : Json → Option O8) (d9 : Json → Option O9)
        (d10 : Json → Option O10) (d11 : Json → Option O11)
        (d12 : Json → Option O12) (j : Json) (o1 : O1) (o12 : O12),
        d1 j = some o1 → d12 j = some o12 →
        Any12.deserializeUntagged d1 d2 d3 d4 d5 d6 d7 d8 d9 d10 d11 d12 j =
          some (.First o1)) := by
  refine ⟨?_, ?_, ?_, ?_⟩
  · intro L R dl dr j l r h1 _
    simp [Either.deserializeUntagged, h1]
  · intro O1 O2 O3 d1 d2 d3 j o1 o3 h1 _
    simp [Any3.deserializeUntagged, h1]
  · intro O1 O2 O3 d1 d2 d3 j o2 o3 h1 h2 _
    simp [Any3.deserializeUntagged, h1, h2]
  · intro O1 O2 O3 O4 O5 O6 O7 O8 O9 O10 O11 O12 d1 d2 d3 d4 d5 d6 d7 d8 d9
      d10 d11 d12 j o1 o12 h1 _
    simp [Any12.deserializeUntagged, h1]

/-- Witness for C1: the always-succeeding decoder matches every variant, and
each wrapper picks the earliest declared one on the concrete input
`Json.null`. -/
theorem untagged_decode_first_match_witness :
    @Either.deserializeUntagged Json Json some some Json.null =
      some (.Left Json.null) ∧
    @Any3.deserializeUntagged Json Json Json some some some Json.null =
      some (.First Json.null) ∧
    @Any3.deserializeUntagged Json Json Json (fun _ => none) some some
      Json.null = some (.Second Json.null) ∧
    @Any12.deserializeUntagged Json Json Json Json Json Json Json Json Json
      Json Json Json some some some some some some some some
      some some some some Json.null = some (.First Json.null) :=
  ⟨untagged_decode_first_match.1 Json Json some some Json.null
      Json.null Json.null rfl rfl,
    untagged_decode_first_match.2.1 Json Json Json some some some Json.null
      Json.null Json.null rfl rfl,
    untagged_decode_first_match.2.2.1 Json Json Json (fun _ => none) some some
      Json.null Json.null Json.null rfl rfl rfl,
    untagged_decode_first_match.2.2.2 Json Json Json Json Json Json Json Json
      Json Json Json Json some some some some some some some some some some
      some some Json.null Json.null Json.null rfl rfl⟩

/-- C2: the `Request` trait statically binds each request payload type to its
wire method name and expected response type; `GetInstrumentsRequest` maps to
`"public/get_instruments"` with response `Vec<GetInstrumentsResponse>`, and
`GetBookSummaryByCurrencyRequest` to
`"public/get_book_summary_by_currency"` with response
`Vec<GetBookSummaryByCurrencyResponse>`. -/
theorem request_static_binding :
    @Request.METHOD GetInstrumentsRequest _ = "public/get_instruments" ∧
    @Request.Response GetInstrumentsRequest _ = List GetInstrumentsResponse ∧
    @Request.METHOD GetBookSummaryByCurrencyRequest _ =
      "public/get_book_summary_by_currency" ∧
    @Request.Response GetBookSummaryByCurrencyRequest _ =
      List GetBookSummaryByCurrencyResponse :=
  ⟨rfl, rfl, rfl, rfl⟩

/-- C4: JSON round-trip for the two market-data request types carrying an
Operation Descriptor: serializing any request value and deserializing the
echoed JSON reproduces the original payload, including when optional fields
are `None` and therefore skipped during serialization. -/
theorem request_json_roundtrip :
    (∀ r : GetInstrumentsRequest,
        GetInstrumentsRequest.fromJson r.toJson = some r) ∧
    (∀ r : GetBookSummaryByCurrencyRequest,
        GetBookSummaryByCurrencyRequest.fromJson r.toJson = some r) := by
  constructor
  · intro r
    obtain ⟨c, k, e⟩ := r
    rcases c with _ | (_ | _ | _) <;> rcases k with _ | (_ | _) <;>
      rcases e with _ | (_ | _) <;> rfl
  · intro r
    obtain ⟨c, k⟩ := r
    rcases c with _ | _ | _ <;> rcases k with _ | (_ | _) <;> rfl

theorem splitOnDot_ne_nil (s : List Char) : splitOnDot s ≠ [] := by
  cases s with
  | nil => simp [splitOnDot]
  | cons c rest =>
    simp only [splitOnDot]
    split
    · simp
    · split <;> simp

theorem splitOnDot_dotfree_eq (s : List Char) (h : '.' ∉ s) :
    splitOnDot s = [s] := by
  induction s with
  | nil => rfl
  | cons c rest ih =>
    have hc : ¬ c = '.' := fun e => h (e ▸ List.mem_cons_self c rest)
    have hrest : '.' ∉ rest := fun m => h (List.mem_cons_of_mem c m)
    simp [splitOnDot, hc, ih hrest]

theorem splitOnDot_append_dot (a t : List Char) (h : '.' ∉ a) :
    splitOnDot (a ++ '.' :: t) = a :: splitOnDot t := by
  induction a with
  | nil => simp [splitOnDot]
  | cons c a0 ih =>
    have hc : ¬ c = '.' := fun e => h (e ▸ List.mem_cons_self c a0)
    have ha0 : '.' ∉ a0 := fun m => h (List.mem_cons_of_mem c m)
    simp [splitOnDot, hc, ih ha0]

theorem mem_splitOnDot (s : List Char) :
    ∀ p ∈ splitOnDot s, '.' ∉ p := by
  induction s with
  | nil =>
    intro p hp
    simp [splitOnDot] at hp
    simp [hp]
  | cons c rest ih =>
    intro p hp
    by_cases hc : c = '.'
    · simp [splitOnDot, hc] at hp
      rcases hp with rfl | hp
      · simp
      · exact ih p hp
    · simp only [splitOnDot, if_neg hc] at hp
      rcases hseg : splitOnDot rest with _ | ⟨seg, segs⟩
      · exact absurd hseg (splitOnDot_ne_nil rest)
      · rw [hseg] at hp
        rcases List.mem_cons.mp hp with rfl | hp
        · intro hmem
          rcases List.mem_cons.mp hmem with e | hmem
          · exact hc e.symm
          · exact ih seg (hseg ▸ List.mem_cons_self seg segs) hmem
        · exact ih p (hseg ▸ List.mem_cons_of_mem seg hp)

theorem joinDots_cons (a : List Char) (l : List (List Char)) (h : l ≠ []) :
    joinDots (a :: l) = a ++ '.' :: joinDots l := by
  cases l with
  | nil => exact absurd rfl h
  | cons x xs => rfl

theorem joinDots_splitOnDot (s : List Char) :
    joinDots (splitOnDot s) = s := by
  induction s with
  | nil => rfl
  | cons c rest ih =>
    simp only [splitOnDot]
    split
    · rename_i hc
      rw [joinDots_cons [] (splitOnDot rest) (splitOnDot_ne_nil rest), ih, hc]
      rfl
    · rcases hseg : splitOnDot rest with _ | ⟨seg, segs⟩
      · exact absurd hseg (splitOnDot_ne_nil rest)
      · show joinDots ((c :: seg) :: segs) = c :: rest
        rcases segs with _ | ⟨x, xs⟩
        · have hr : seg = rest := by
            rw [hseg] at ih
            exact ih
          show c :: seg = c :: rest
          rw [hr]
        · rw [joinDots_cons (c :: seg) (x :: xs) (by simp)]
          have hr : seg ++ '.' :: joinDots (x :: xs) = rest := by
            rw [hseg, joinDots_cons seg (x :: xs) (by simp)] at ih
            exact ih
          rw [List.cons_append, hr]

theorem display_byInstrument_eq (i iv : List Char) :
    UserChangesChannel.toDisplay (.ByInstrument i iv) =
      "user".toList ++ '.' :: ("changes".toList ++ '.' :: (i ++ '.' :: iv)) :=
  rfl

theorem display_byKind_eq (k c iv : List Char) :
    UserChangesChannel.toDisplay (.ByKind k c iv) =
      "user".toList ++ '.' ::
        ("changes".toList ++ '.' :: (k ++ '.' :: (c ++ '.' :: iv))) := by
  show (("user.changes.".toList ++ k) ++ ('.' :: c)) ++ ('.' :: iv) = _
  rw [List.append_assoc, List.append_assoc, List.cons_append]
  rfl

theorem splitOnDot_display_byInstrument (i iv : List Char) (hi : '.' ∉ i)
    (hiv : '.' ∉ iv) :
    splitOnDot (UserChangesChannel.toDisplay (.ByInstrument i iv)) =
      ["user".toList, "changes".toList, i, iv] := by
  rw [display_byInstrument_eq, splitOnDot_append_dot _ _ (by decide),
      splitOnDot_append_dot _ _ (by decide), splitOnDot_append_dot _ _ hi,
      splitOnDot_dotfree_eq _ hiv]

theorem splitOnDot_display_byKind (k c iv : List Char) (hk : '.' ∉ k)
    (hc : '.' ∉ c) (hiv : '.' ∉ iv) :
    splitOnDot (UserChangesChannel.toDisplay (.ByKind k c iv)) =
      ["user".toList, "changes".toList, k, c, iv] := by
  rw [display_byKind_eq, splitOnDot_append_dot _ _ (by decide),
      splitOnDot_append_dot _ _ (by decide), splitOnDot_append_dot _ _ hk,
      splitOnDot_append_dot _ _ hc, splitOnDot_dotfree_eq _ hiv]

/-- C3: deserializing a `UserChangesChannel` succeeds exactly on strings of
the form `user.changes.<instrument_name>.<interval>` (four dot-separated
segments, yielding `ByInstrument`) or
`user.changes.<kind>.<currency>.<interval>` (five segments, yielding
`ByKind`), and fails with an invalid-value error on every other string. -/
theorem user_changes_channel_parse (s : List Char) :
    (∀ instrument_name interval,
        '.' ∉ instrument_name → '.' ∉ interval →
        s = UserChangesChannel.toDisplay
              (.ByInstrument instrument_name interval) →
        UserChangesChannel.deserialize s =
          .ok (.ByInstrument instrument_name interval)) ∧
    (∀ kind currency interval,
        '.' ∉ kind → '.' ∉ currency → '.' ∉ interval →
        s = UserChangesChannel.toDisplay (.ByKind kind currency interval) →
        UserChangesChannel.deserialize s =
          .ok (.ByKind kind currency interval)) ∧
    ((¬ ∃ i iv, '.' ∉ i ∧ '.' ∉ iv ∧
          s = UserChangesChannel.toDisplay (.ByInstrument i iv)) →
      (¬ ∃ k c iv, '.' ∉ k ∧ '.' ∉ c ∧ '.' ∉ iv ∧
          s = UserChangesChannel.toDisplay (.ByKind k c iv)) →
      UserChangesChannel.deserialize s =
        .error (.invalidValue s userChangesExpected)) := by
  refine ⟨?_, ?_, ?_⟩
  · intro i iv hi hiv hs
    subst hs
    unfold UserChangesChannel.deserialize
    rw [splitOnDot_display_byInstrument i iv hi hiv]
    simp
  · intro k c iv hk hc hiv hs
    subst hs
    unfold UserChangesChannel.deserialize
    rw [splitOnDot_display_byKind k c iv hk hc hiv]
    simp
  · intro h4 h5
    unfold UserChangesChannel.deserialize
    split
    · rename_i u c i iv heq
      split
      · rename_i hcond
        exfalso
        apply h4
        refine ⟨i, iv, ?_, ?_, ?_⟩
        · exact mem_splitOnDot s i (by rw [heq]; simp)
        · exact mem_splitOnDot s iv (by rw [heq]; simp)
        · have hj := joinDots_splitOnDot s
          rw [heq] at hj
          rw [← hj, hcond.1, hcond.2, display_byInstrument_eq]
          rfl
      · rfl
    · rename_i u c k cu iv heq
      split
      · rename_i hcond
        exfalso
        apply h5
        refine ⟨k, cu, iv, ?_, ?_, ?_, ?_⟩
        · exact mem_splitOnDot s k (by rw [heq]; simp)
        · exact mem_splitOnDot s cu (by rw [heq]; simp)
        · exact mem_splitOnDot s iv (by rw [heq]; simp)
        · have hj := joinDots_splitOnDot s
          rw [heq] at hj
          rw [← hj, hcond.1, hcond.2, display_byKind_eq]
          rfl
      · rfl
    · rfl

/-- Witness for C3: concrete channel strings of both accepted shapes parse to
the expected variants, and a malformed string yields the invalid-value
error. -/
theorem user_changes_channel_parse_witness :
    UserChangesChannel.deserialize "user.changes.BTC-PERPETUAL.raw".toList =
      .ok (.ByInstrument "BTC-PERPETUAL".toList "raw".toList) ∧
    UserChangesChannel.deserialize "user.changes.future.BTC.100ms".toList =
      .ok (.ByKind "future".toList "BTC".toList "100ms".toList) ∧
    UserChangesChannel.deserialize "ticker.BTC-PERPETUAL.raw".toList =
      .error (.invalidValue "ticker.BTC-PERPETUAL.raw".toList
        userChangesExpected) := by
  refine ⟨(user_changes_channel_parse _).1 "BTC-PERPETUAL".toList
      "raw".toList (by decide) (by decide) rfl,
    (user_changes_channel_parse _).2.1 "future".toList "BTC".toList
      "100ms".toList (by decide) (by decide) (by decide) rfl,
    (user_changes_channel_parse _).2.2 ?_ ?_⟩
  · rintro ⟨i, iv, hi, hiv, hs⟩
    have h := splitOnDot_display_byInstrument i iv hi hiv
    rw [← hs] at h
    have h0 : splitOnDot "ticker.BTC-PERPETUAL.raw".toList =
        ["ticker".toList, "BTC-PERPETUAL".toList, "raw".toList] := by decide
    rw [h0] at h
    simp at h
  · rintro ⟨k, c, iv, hk, hc, hiv, hs⟩
    have h := splitOnDot_display_byKind k c iv hk hc hiv
    rw [← hs] at h
    have h0 : splitOnDot "ticker.BTC-PERPETUAL.raw".toList =
        ["ticker".toList, "BTC-PERPETUAL".toList, "raw".toList] := by decide
    rw [h0] at h
    simp at h

/-- C8: for every `UserChangesChannel` whose segment fields contain no dot,
deserializing the string produced by its `Display`/`Serialize` impl yields a
channel equal to the original; and the precondition is necessary: a
`ByInstrument` channel whose instrument name contains a dot serializes to a
five-segment string that re-parses as a `ByKind` channel. -/
theorem user_changes_display_roundtrip :
    (∀ ch : UserChangesChannel, ch.segmentsDotfree →
        UserChangesChannel.deserialize ch.toDisplay = .ok ch) ∧
    UserChangesChannel.deserialize
        (UserChangesChannel.toDisplay
          (.ByInstrument "a.b".toList "raw".toList)) =
      .ok (.ByKind "a".toList "b".toList "raw".toList) := by
  constructor
  · intro ch h
    cases ch with
    | ByInstrument i iv =>
      obtain ⟨hi, hiv⟩ := h
      unfold UserChangesChannel.deserialize
      rw [splitOnDot_display_byInstrument i iv hi hiv]
      simp
    | ByKind k c iv =>
      obtain ⟨hk, hc, hiv⟩ := h
      unfold UserChangesChannel.deserialize
      rw [splitOnDot_display_byKind k c iv hk hc hiv]
      simp
  · rfl

/-- Witness for C8: a dot-free channel of each shape round-trips through its
display string. -/
theorem user_changes_display_roundtrip_witness :
    UserChangesChannel.deserialize
        (UserChangesChannel.toDisplay
          (.ByKind "future".toList "ETH".toList "raw".toList)) =
      .ok (.ByKind "future".toList "ETH".toList "raw".toList) :=
  user_changes_display_roundtrip.1
    (.ByKind "future".toList "ETH".toList "raw".toList)
    (by refine ⟨?_, ?_, ?_⟩ <;> decide)

/-- C10: `unwrap_left` panics (modelled `none`) exactly on `Right` values and
otherwise returns the contained value; symmetrically for `unwrap_right`; the
accessors `left`, `right`, `left_result`, `right_result` are total (never
panic) and return the contained value exactly on the corresponding
variant. -/
theorem either_accessors (L R : Type) (e : Either L R) :
    ((∃ r, e = .Right r) ↔ e.unwrap_left = none) ∧
    (∀ l, e = .Left l → e.unwrap_left = some l) ∧
    ((∃ l, e = .Left l) ↔ e.unwrap_right = none) ∧
    (∀ r, e = .Right r → e.unwrap_right = some r) ∧
    (∀ l, e = .Left l → e.left = some l ∧ e.right = none ∧
        e.left_result = .ok l ∧ e.right_result = .error l) ∧
    (∀ r, e = .Right r → e.right = some r ∧ e.left = none ∧
        e.right_result = .ok r ∧ e.left_result = .error r) := by
  cases e <;>
    simp [Either.unwrap_left, Either.unwrap_right, Either.left, Either.right,
      Either.left_result, Either.right_result]

/-- Witness for C10: the accessors evaluated on concrete `Left`/`Right`
values through the theorem. -/
theorem either_accessors_witness :
    (Either.Left 1 : Either Nat Nat).unwrap_left = some 1 ∧
    (Either.Right 2 : Either Nat Nat).unwrap_left = none ∧
    (Either.Left 1 : Either Nat Nat).left_result = .ok 1 ∧
    (Either.Right 2 : Either Nat Nat).right_result = .ok 2 :=
  ⟨(either_accessors Nat Nat _).2.1 1 rfl,
    (either_accessors Nat Nat _).1.mp ⟨2, rfl⟩,
    ((either_accessors Nat Nat _).2.2.2.2.1 1 rfl).2.2.1,
    ((either_accessors Nat Nat _).2.2.2.2.2 2 rfl).2.2.1⟩

/-- C9 counterexample: `Currency::from_str` also returns `Ok` on the
eight-character string backslash-u-0-0-4-2-T-C, which is none of the six
alias spellings, because the impl routes the input through a JSON string
literal and the unicode escape decodes to the letter B, giving `BTC`. -/
theorem currency_from_str_counterexample :
    Currency.from_str "\\u0042TC".toList = .ok .BTC ∧
    "\\u0042TC".toList ∉
      ["BTC".toList, "btc".toList, "ETH".toList, "eth".toList,
        "USD".toList, "usd".toList] :=
  ⟨rfl, by decide⟩

/-- C9 amended: `from_str s` returns `Ok` exactly when the quote-wrapped
input parses as a JSON string literal whose decoded text is one of the six
alias spellings — so the six literal strings succeed with the corresponding
variant, but so do JSON-escape spellings of them; every other string yields
`UnknownCurrency` carrying `s` verbatim; and `from_str (c.to_string())`
returns `Ok c` for every `Currency` value `c`. -/
theorem currency_from_str_amended :
    (Currency.from_str "BTC".toList = .ok .BTC ∧
      Currency.from_str "btc".toList = .ok .BTC ∧
      Currency.from_str "ETH".toList = .ok .ETH ∧
      Currency.from_str "eth".toList = .ok .ETH ∧
      Currency.from_str "USD".toList = .ok .USD ∧
      Currency.from_str "usd".toList = .ok .USD) ∧
    (∀ s, (Currency.from_str s).isOk = true ↔
        ((parseJsonStringDoc ('"' :: (s ++ ['"']))).bind
            Currency.fromJsonStrChars).isSome = true) ∧
    (∀ s, (parseJsonStringDoc ('"' :: (s ++ ['"']))).bind
            Currency.fromJsonStrChars = none →
        Currency.from_str s = .error (.UnknownCurrency s)) ∧
    (∀ c : Currency, Currency.from_str c.toDisplay = .ok c) := by
  refine ⟨⟨rfl, rfl, rfl, rfl, rfl, rfl⟩, ?_, ?_, ?_⟩
  · intro s
    unfold Currency.from_str
    cases h : parseJsonStringDoc ('"' :: (s ++ ['"'])) with
    | none => simp [Except.isOk, Except.toBool]
    | some t =>
      cases h2 : Currency.fromJsonStrChars t with
      | none => simp [h2, Except.isOk, Except.toBool]
      | some c => simp [h2, Except.isOk, Except.toBool]
  · intro s hnone
    unfold Currency.from_str
    cases h : parseJsonStringDoc ('"' :: (s ++ ['"'])) with
    | none => rfl
    | some t =>
      rw [h] at hnone
      simp only [Option.bind] at hnone
      simp [hnone]
  · intro c
    cases c <;> rfl

/-- Witness for C9 (amended): a non-alias string maps to the verbatim
`UnknownCurrency` error, and a lowercase alias succeeds, both obtained
through the amended theorem at concrete inputs. -/
theorem currency_from_str_amended_witness :
    Currency.from_str "doge".toList =
      .error (.UnknownCurrency "doge".toList) ∧
    (Currency.from_str "btc".toList).isOk = true :=
  ⟨currency_from_str_amended.2.2.1 "doge".toList (by rfl),
    (currency_from_str_amended.2.1 "btc".toList).mpr (by rfl)⟩

theorem CorrelationTable.run_spec (evs : List CallEvent) :
    ∀ st : CorrelationTable, st.pending.Nodup →
      (∀ i ∈ st.pending, i < st.nextId) →
      (st.run evs).1.pending.Nodup ∧
      (∀ i ∈ (st.run evs).1.pending, i < (st.run evs).1.nextId) ∧
      st.nextId ≤ (st.run evs).1.nextId ∧
      ∀ id : Nat,
        (st.run evs).2.count id + (st.run evs).1.pending.count id =
          st.pending.count id +
            if st.nextId ≤ id ∧ id < (st.run evs).1.nextId then 1 else 0 := by
  induction evs with
  | nil =>
    intro st hnd hlt
    refine ⟨hnd, hlt, Nat.le_refl _, ?_⟩
    intro id
    have h : ¬ (st.nextId ≤ id ∧ id < st.nextId) := by omega
    simp [run, h]
  | cons e es ih =>
    intro st hnd hlt
    cases e with
    | register =>
      have hnotmem : st.nextId ∉ st.pending := fun hm =>
        absurd (hlt _ hm) (lt_irrefl _)
      have hnd1 : (st.nextId :: st.pending).Nodup :=
        List.nodup_cons.mpr ⟨hnotmem, hnd⟩
      have hlt1 : ∀ i ∈ st.nextId :: st.pending, i < st.nextId + 1 := by
        intro i hi
        rcases List.mem_cons.mp hi with rfl | hi
        · omega
        · exact Nat.lt_succ_of_lt (hlt i hi)
      have H := ih ⟨st.nextId + 1, st.nextId :: st.pending⟩ hnd1 hlt1
      have hrun1 : (st.run (CallEvent.register :: es)).1 =
          ((⟨st.nextId + 1, st.nextId :: st.pending⟩ :
            CorrelationTable).run es).1 := by
        simp [run, step]
      have hrun2 : (st.run (CallEvent.register :: es)).2 =
          ((⟨st.nextId + 1, st.nextId :: st.pending⟩ :
            CorrelationTable).run es).2 := by
        simp [run, step]
      rw [hrun1, hrun2]
      refine ⟨H.1, H.2.1, Nat.le_trans (Nat.le_succ _) H.2.2.1, ?_⟩
      intro id
      have hc := H.2.2.2 id
      rw [List.count_cons] at hc
      have hm := H.2.2.1
      split_ifs at hc ⊢ <;> simp_all <;> omega
    | resolve rid =>
      by_cases hmem : rid ∈ st.pending
      · have hnd1 : (st.pending.erase rid).Nodup := hnd.erase rid
        have hlt1 : ∀ i ∈ st.pending.erase rid, i < st.nextId :=
          fun i hi => hlt i (List.mem_of_mem_erase hi)
        have H := ih ⟨st.nextId, st.pending.erase rid⟩ hnd1 hlt1
        have hrun1 : (st.run (CallEvent.resolve rid :: es)).1 =
            ((⟨st.nextId, st.pending.erase rid⟩ :
              CorrelationTable).run es).1 := by
          simp [run, step, hmem]
        have hrun2 : (st.run (CallEvent.resolve rid :: es)).2 =
            rid :: ((⟨st.nextId, st.pending.erase rid⟩ :
              CorrelationTable).run es).2 := by
          simp [run, step, hmem]
        rw [hrun1, hrun2]
        refine ⟨H.1, H.2.1, H.2.2.1, ?_⟩
        intro id
        have hc := H.2.2.2 id
        by_cases h1 : id = rid
        · subst h1
          rw [List.count_cons_self]
          rw [List.count_erase_self] at hc
          have hcnt : st.pending.count id = 1 :=
            List.count_eq_one_of_mem hnd hmem
          split_ifs at hc ⊢ <;> omega
        · rw [List.count_cons_of_ne h1]
          rw [List.count_erase_of_ne h1] at hc
          split_ifs at hc ⊢ <;> omega
      · have H := ih st hnd hlt
        have hrun1 : (st.run (CallEvent.resolve rid :: es)).1 =
            (st.run es).1 := by
          simp [run, step, hmem]
        have hrun2 : (st.run (CallEvent.resolve rid :: es)).2 =
            (st.run es).2 := by
          simp [run, step, hmem]
        rw [hrun1, hrun2]
        exact H

/-- C5: for every sequence of call submissions and server resolutions, in the
complete session (the trace followed by teardown's `expire_all`) every
registered call — the ids below the final value of the fresh-id counter —
receives exactly one resolution, and unregistered ids receive none: never
zero and never two. -/
theorem call_resolved_exactly_once (evs : List CallEvent) (id : Nat) :
    (CorrelationTable.session evs).count id =
      if id < (CorrelationTable.init.run evs).1.nextId then 1 else 0 := by
  have H := CorrelationTable.run_spec evs CorrelationTable.init
    List.nodup_nil (by intro i hi; cases hi)
  have hc := H.2.2.2 id
  have h0 : CorrelationTable.init.pending.count id = 0 := rfl
  have h1 : CorrelationTable.init.nextId = 0 := rfl
  rw [h0, h1] at hc
  unfold CorrelationTable.session
  have hexp : ((CorrelationTable.init.run evs).1.expire_all).2 =
      (CorrelationTable.init.run evs).1.pending := rfl
  rw [hexp, List.count_append]
  split_ifs at hc ⊢ <;> omega

/-- C6: decoding a frame that matches no known shape fails with a returned
invalid-value error — the embedded deserializer is total, returning either a
value or an error, never panicking — and the read loop discards such a
frame, leaving the connection state (hence the session) untouched. -/
theorem malformed_frame_discarded :
    (∀ s, (∃ ch, UserChangesChannel.deserialize s = .ok ch) ∨
        UserChangesChannel.deserialize s =
          .error (.invalidValue s userChangesExpected)) ∧
    (∀ (conn : ConnectionState) (frame : List Char),
        (UserChangesChannel.deserialize frame).isOk = false →
        readLoopStep UserChangesChannel.deserialize conn frame =
          (conn, none)) := by
  constructor
  · intro s
    unfold UserChangesChannel.deserialize
    split
    · split
      · exact .inl ⟨_, rfl⟩
      · exact .inr rfl
    · split
      · exact .inl ⟨_, rfl⟩
      · exact .inr rfl
    · exact .inr rfl
  · intro conn frame h
    unfold readLoopStep
    cases hd : UserChangesChannel.deserialize frame with
    | ok a =>
      rw [hd] at h
      simp [Except.isOk, Except.toBool] at h
    | error e => rfl

/-- Witness for C6: a frame from an unknown channel family is discarded with
the connection left in `Connected`. -/
theorem malformed_frame_discarded_witness :
    readLoopStep UserChangesChannel.deserialize .Connected
        "garbage".toList = (.Connected, none) :=
  malformed_frame_discarded.2 .Connected "garbage".toList (by decide)

/-- C7: a Result envelope whose id matches no outstanding `PendingCall` is
dropped — no completion is emitted — and the table, hence the state of every
other `PendingCall`, is left unchanged. -/
theorem unmatched_resolve_dropped (st : CorrelationTable) (id : Nat)
    (h : id ∉ st.pending) :
    st.step (.resolve id) = (st, []) := by
  simp [CorrelationTable.step, h]

/-- Witness for C7: resolving id 7 on a table whose outstanding ids are 0
and 2 changes nothing and emits no resolution. -/
theorem unmatched_resolve_dropped_witness :
    (CorrelationTable.mk 3 [0, 2]).step (.resolve 7) =
      (CorrelationTable.mk 3 [0, 2], []) :=
  unmatched_resolve_dropped ⟨3, [0, 2]⟩ 7 (by decide)
